import Mathlib

/-!
Verification of the slide-generation service in `railway-api/app`.

The Python sources are shallowly embedded: Python strings are Lean `String`s,
but every Python string operation used by the code (`strip`, `lower`,
`split`, `startswith`, `endswith`, slicing) is re-implemented over the
underlying character list `String.data`, mirroring Python's code-point
semantics, so that all definitions evaluate by kernel reduction.

Embedded modules:
  * `app/routers/slides/utils.py` — effect layer and background handling;
  * `app/routers/scripture_slides.py` — scripture deck assembly;
  * `app/routers/hymn_slides.py` — hymn deck assembly;
  * `app/routers/call_to_worship_slides.py` — call-to-worship deck assembly.
-/

/-! ## Python string primitives -/

/-- Whitespace as removed by Python `str.strip` (the ASCII whitespace
characters, which are the only ones the embedded code encounters). -/
def isWsChar (c : Char) : Bool :=
  c = ' ' || c = '\t' || c = '\n' || c = '\r' || c = '\x0b' || c = '\x0c'

/-- Python `lstrip` on a character list. -/
def pyLStripL (l : List Char) : List Char := l.dropWhile isWsChar

/-- Python `strip` on a character list. -/
def pyStripL (l : List Char) : List Char := ((pyLStripL l.reverse).reverse).dropWhile isWsChar

/-- Python `s.strip()`. -/
def pyStrip (s : String) : String := String.mk (pyStripL s.data)

/-- Python `s.lstrip()`. -/
def pyLStrip (s : String) : String := String.mk (pyLStripL s.data)

/-- ASCII lowering of one character, as Python `str.lower` acts on the
ASCII characters appearing in the embedded code. -/
def asciiLowerChar (c : Char) : Char :=
  if 65 ≤ c.toNat && c.toNat ≤ 90 then Char.ofNat (c.toNat + 32) else c

/-- Python `s.lower()`. -/
def pyLower (s : String) : String := String.mk (s.data.map asciiLowerChar)

/-- Python `s.startswith(pre)`. -/
def pyStartsWith (pre s : String) : Bool := pre.data.isPrefixOf s.data

/-- Python `tag.endswith(suf)` (used on lxml tag names). -/
def pyEndsWith (suf s : String) : Bool := suf.data.isSuffixOf s.data

/-- Python `s[n:]`. -/
def pyDrop (n : Nat) (s : String) : String := String.mk (s.data.drop n)

/-- Python `c in s` for a single character `c`. -/
def pyContainsChar (c : Char) (s : String) : Bool := s.data.contains c

/-- Fuel-driven worker for Python `str.split(sep)` (no maxsplit): scan the
list, cutting a fragment each time `sep` matches at the current position.
The fuel is an upper bound on the number of scanned characters; it makes
the recursion structural so the kernel can evaluate it. -/
def pySplitFuel (sep : List Char) : Nat → List Char → List Char → List (List Char)
  | _, [], cur => [cur.reverse]
  | 0, rest, cur => [cur.reverse ++ rest]
  | fuel + 1, c :: cs, cur =>
    if sep.isPrefixOf (c :: cs) then
      cur.reverse :: pySplitFuel sep fuel ((c :: cs).drop sep.length) []
    else
      pySplitFuel sep fuel cs (c :: cur)

/-- Python `s.split(sep)` with a non-empty separator, over character lists. -/
def pySplitL (sep l : List Char) : List (List Char) := pySplitFuel sep l.length l []

/-- Python `s.split(sep)` with a non-empty separator. -/
def pySplit (sep s : String) : List String := (pySplitL sep.data s.data).map String.mk

/-- Worker for Python `s.split(sep, 1)`: find the first occurrence of `sep`,
returning the (reversed-accumulator) piece before it and the untouched rest. -/
def pySplitOnceAux (sep : List Char) : List Char → List Char → List (List Char)
  | [], cur => [cur.reverse]
  | c :: cs, cur =>
    if sep.isPrefixOf (c :: cs) then [cur.reverse, (c :: cs).drop sep.length]
    else pySplitOnceAux sep cs (c :: cur)

/-- Python `s.split(sep, 1)` with a non-empty separator. -/
def pySplitOnce (sep s : String) : List String :=
  (pySplitOnceAux sep.data s.data []).map String.mk

/-- Python `lst[-1]` on a non-empty list of strings (default never used:
both branches of `pySplitOnceAux` return a non-empty list). -/
def pyLastString (l : List String) : String := l.getLastD ""

/-! ## Effect layer (`app/routers/slides/utils.py`) -/

/-- The DrawingML namespace with which `parse_xml` qualifies every tag the
effect helpers create; lxml renders a qualified tag as the namespace in
braces followed by the local name. -/
def drawingmlNS : String :=
  "\x7bhttp://schemas.openxmlformats.org/drawingml/2006/main\x7d"

/-- An RGB color triple as passed to the effect helpers. -/
structure Rgb where
  r : Nat
  g : Nat
  b : Nat
deriving DecidableEq

/-- One entry of a combined `a:effectLst` as `set_run_effects` builds it. -/
inductive EffectEntry
  | glow (color : Rgb) (radEmu : Nat)
  | innerShdw (color : Rgb) (blurEmu distEmu dirOoxml : Nat)
  | outerShdw (color : Rgb) (blurEmu distEmu dirOoxml : Nat)
deriving DecidableEq

/-- A child element of a run-properties (`a:rPr`) node.  The effect helpers
only ever append `effectLst` and `highlight` elements; any other child
(`solidFill`, `ln`, pre-existing markup) is carried as `node` with its
qualified tag. -/
inductive RPrChild
  | effectLst (entries : List EffectEntry)
  | highlight (color : Rgb)
  | node (tag : String)
deriving DecidableEq

/-- The qualified tag of an `rPr` child, as lxml's `child.tag` reports it. -/
def RPrChild.tag : RPrChild → String
  | .effectLst _ => drawingmlNS ++ "effectLst"
  | .highlight _ => drawingmlNS ++ "highlight"
  | .node t => t

/-- Keyword parameters of `set_run_effects`.  Radii and distances are kept in
EMU (the source multiplies the point values by 12700 before emitting them);
the claim under study only depends on which color arguments are present. -/
structure EffectParams where
  glow_rgb : Option Rgb
  glow_rad_emu : Nat
  inner_shadow_rgb : Option Rgb
  inner_blur_emu : Nat
  inner_dist_emu : Nat
  outer_shadow_rgb : Option Rgb
  outer_blur_emu : Nat
  outer_dist_emu : Nat
  dir_ooxml : Nat
deriving DecidableEq

/-- The ordered entry list `set_run_effects` builds: glow, then inner
shadow, then outer shadow, each present iff its color argument is. -/
def effectEntries (p : EffectParams) : List EffectEntry :=
  (match p.glow_rgb with
    | some c => [EffectEntry.glow c (max 1 p.glow_rad_emu)]
    | none => [])
  ++ (match p.inner_shadow_rgb with
    | some c => [EffectEntry.innerShdw c (max 1 p.inner_blur_emu) p.inner_dist_emu p.dir_ooxml]
    | none => [])
  ++ (match p.outer_shadow_rgb with
    | some c => [EffectEntry.outerShdw c (max 1 p.outer_blur_emu) p.outer_dist_emu p.dir_ooxml]
    | none => [])

/-- `set_run_effects` from `utils.py`: remove every `rPr` child whose tag
ends with `effectLst`, then, when at least one effect part was built,
append one combined `effectLst` element. -/
def set_run_effects (p : EffectParams) (rPr : List RPrChild) : List RPrChild :=
  let pruned := rPr.filter (fun c => !(pyEndsWith "effectLst" c.tag))
  if (effectEntries p).isEmpty then pruned
  else pruned ++ [RPrChild.effectLst (effectEntries p)]

/-- `set_run_highlight` from `utils.py`: remove every `rPr` child whose tag
ends with `highlight`, then append one new highlight element. -/
def set_run_highlight (color : Rgb) (rPr : List RPrChild) : List RPrChild :=
  rPr.filter (fun c => !(pyEndsWith "highlight" c.tag)) ++ [RPrChild.highlight color]

/-- `add_run_glow` from `utils.py` (srgb branch): append a fresh
single-glow `effectLst` without removing prior ones. -/
def add_run_glow (color : Rgb) (radEmu : Nat) (rPr : List RPrChild) : List RPrChild :=
  rPr ++ [RPrChild.effectLst [EffectEntry.glow color (max 1 radEmu)]]

/-! ## Background image handling (`utils.py`) -/

/-- The string `process_background_image` hands to `base64.b64decode`:
`data.split(',')[1]` when the payload contains a comma, the payload itself
otherwise.  (`split(',')` cuts at every comma, and index 1 selects the
second piece; under the comma guard the split has at least two pieces, so
the Python indexing never raises and the default of `getD` is never used.) -/
def decodedPayload (data : String) : String :=
  if pyContainsChar ',' data then (pySplit "," data).getD 1 "" else data

/-- `process_background_image` from `utils.py`.  The base64 decoder and the
temporary-file allocator are abstracted as parameters: `decode` returns
`none` when `b64decode` raises (the surrounding `try` turns any failure
into a `None` return), and `tmpPath` is the name of the temporary file the
decoded bytes are written to. -/
def process_background_image (decode : String → Option (List Nat)) (tmpPath : String)
    (data : String) : Option String :=
  if data = "" then none
  else
    match decode (decodedPayload data) with
    | none => none
    | some _ => some tmpPath

/-- A slide background: a full-bleed image or the solid white fallback. -/
inductive SlideBackground
  | image (path : String)
  | white
deriving DecidableEq

/-- `set_slide_background` from `utils.py`: use the image when a path was
supplied and the file exists, otherwise fall back to solid white. -/
def set_slide_background (fileExists : String → Bool) :
    Option String → SlideBackground
  | some p => if fileExists p then SlideBackground.image p else SlideBackground.white
  | none => SlideBackground.white

/-! ## Scripture pipeline (`app/routers/scripture_slides.py`) -/

/-- One entry of the `verses` request payload: a verse number and its text.
A missing or zero verse number is encoded as `0`, which is exactly the set
of values the Python guard `if verse_num:` rejects. -/
structure Verse where
  verse : Nat
  text : String
deriving DecidableEq

/-- The translation label `_add_verse_content` receives in combined mode. -/
inductive Translation
  | nrsvue
  | tmb
deriving DecidableEq

/-- One emitted scripture slide: its verse number, the translation label
(`none` in single-translation mode) and the body text. -/
structure ScriptureSlide where
  verse : Nat
  translation : Option Translation
  text : String
deriving DecidableEq

/-- The verse numbers that receive an entry of `verse_map`: those of the
primary-translation verses whose number is truthy. -/
def validKeys (verses : List Verse) : List Nat :=
  ((verses.filter (fun v => v.verse != 0)).map (fun v => v.verse)).dedup

/-- `sorted(verse_map.keys())`. -/
def sortedKeys (verses : List Verse) : List Nat :=
  (validKeys verses).insertionSort (· ≤ ·)

/-- The final `verse_map[k]["nrsvue"]`: the dict assignment in the first
loop leaves the stripped text of the last primary verse numbered `k`. -/
def nrsvueTextAt (verses : List Verse) (k : Nat) : String :=
  (((verses.filter (fun v => v.verse == k)).map (fun v => pyStrip v.text)).getLast?).getD ""

/-- The final `verse_map[k]["tmb"]` for a key `k` of `verse_map`: the
stripped text of the last alternate verse numbered `k`, or the empty
string the first loop stored when no alternate verse has number `k`. -/
def tmbTextAt (versesAlt : List Verse) (k : Nat) : String :=
  (((versesAlt.filter (fun v => v.verse == k)).map (fun v => pyStrip v.text)).getLast?).getD ""

/-- The at-most-two slides combined mode emits for one verse number:
primary translation first when its text is non-empty, then the alternate
when its text is non-empty. -/
def combinedGroup (verses versesAlt : List Verse) (k : Nat) : List ScriptureSlide :=
  (if nrsvueTextAt verses k = "" then []
    else [⟨k, some Translation.nrsvue, nrsvueTextAt verses k⟩])
  ++ (if tmbTextAt versesAlt k = "" then []
    else [⟨k, some Translation.tmb, tmbTextAt versesAlt k⟩])

/-- Combined-mode slide sequence: for each key of `verse_map` in ascending
order, the primary slide then the alternate slide. -/
def combinedSlides (verses versesAlt : List Verse) : List ScriptureSlide :=
  (sortedKeys verses).flatMap (combinedGroup verses versesAlt)

/-- Single-translation-mode slide sequence: one slide per verse whose
stripped text is non-empty, in input order. -/
def singleSlides (verses : List Verse) : List ScriptureSlide :=
  verses.filterMap (fun v =>
    let t := pyStrip v.text
    if t = "" then none else some ⟨v.verse, none, t⟩)

/-- The slide sequence `create_scripture_slides` emits.  The Python guard
`if verses_alt:` selects combined mode exactly when the alternate list is
present and non-empty. -/
def create_scripture_slides (verses : List Verse) :
    Option (List Verse) → List ScriptureSlide
  | some alt => if alt.isEmpty then singleSlides verses else combinedSlides verses alt
  | none => singleSlides verses

/-- The content font size chosen by `_add_verse_content`, in points:
Python `len` is the number of code points, i.e. `String.length`. -/
def contentFontSize (text : String) : Nat :=
  if text.length > 300 then 36
  else if text.length > 200 then 44
  else if text.length > 100 then 52
  else 58

/-! ## Hymn pipeline (`app/routers/hymn_slides.py`) -/

/-- One entry of `hymn_data['lyrics']`. -/
structure LyricSection where
  page_name : String
  text : String
deriving DecidableEq

/-- A slide of a hymn deck: the cover, or one lyric fragment. -/
inductive HymnSlide
  | cover
  | lyric (page_name text : String)
deriving DecidableEq

/-- Whether a hymn slide is a lyric slide. -/
def HymnSlide.isLyric : HymnSlide → Bool
  | .lyric _ _ => true
  | .cover => false

/-- The non-empty stripped fragments a section's text splits into at the
`<br>` markers; `create_hymn_slides` emits one slide per fragment. -/
def sectionFragments (sec : LyricSection) : List String :=
  ((pySplit "<br>" sec.text).map pyStrip).filter (fun t => t != "")

/-- The slide sequence `create_hymn_slides` emits: an optional cover slide,
then per section one lyric slide per non-empty fragment. -/
def create_hymn_slides (lyrics : List LyricSection) (include_cover : Bool) : List HymnSlide :=
  (if include_cover then [HymnSlide.cover] else [])
  ++ lyrics.flatMap (fun sec =>
    (sectionFragments sec).map (fun t => HymnSlide.lyric sec.page_name t))

/-- The default of `create_hymn_slides`' `include_cover` keyword. -/
def include_cover_default : Bool := true

/-- The deck `generate_hymn_slides_endpoint` produces: it calls
`create_hymn_slides(hymn_info, output_path, background)` without passing
`include_cover`, so the default applies. -/
def generate_hymn_slides_endpoint_deck (lyrics : List LyricSection) : List HymnSlide :=
  create_hymn_slides lyrics include_cover_default

/-! ## Call-to-worship pipeline (`app/routers/call_to_worship_slides.py`) -/

/-- One Leader/People pair. -/
structure CtwPair where
  leader : String
  people : String
deriving DecidableEq

/-- One step of the free-text loop in `generate_call_to_worship_endpoint`:
strip the line; a line whose lowering starts with `leader:` overwrites the
leader text with the stripped remainder after the prefix, an (elif) line
starting with `people:` likewise overwrites the people text. -/
def ctwLineStep (acc : String × String) (line : String) : String × String :=
  let line := pyStrip line
  if pyStartsWith "leader:" (pyLower line) then (pyStrip (pyDrop 7 line), acc.2)
  else if pyStartsWith "people:" (pyLower line) then (acc.1, pyStrip (pyDrop 7 line))
  else acc

/-- The pair list the endpoint builds from free text when no pairs were
supplied: fold the lines, then keep the single extracted pair when either
component is non-empty, else fall back to the whole text as the leader. -/
def parse_ctw_text (text : String) : List CtwPair :=
  let lp := (pySplit "\n" text).foldl ctwLineStep ("", "")
  if lp.1 ≠ "" ∨ lp.2 ≠ "" then [⟨lp.1, lp.2⟩] else [⟨text, ""⟩]

/-- The pair list `generate_call_to_worship_endpoint` passes on: supplied
pairs when non-empty; otherwise the free-text parse, with `none` standing
for the HTTP 400 raised on an empty text. -/
def endpoint_ctw_pairs (pairs : List CtwPair) (text : String) : Option (List CtwPair) :=
  if pairs.isEmpty then
    if text = "" then none else some (parse_ctw_text text)
  else some pairs

/-- The sanitization `add_call_to_worship_slide` applies to one rendered
value: when the stripped, lowered value starts with `rolePre` (that is,
`leader:` or `people:`), replace it by `value.split(':', 1)[-1].lstrip()`. -/
def sanitize_role_text (rolePre : String) (value : String) : String :=
  if pyStartsWith rolePre (pyLower (pyStrip value)) then
    pyLStrip (pyLastString (pySplitOnce ":" value))
  else value

/-- The text runs of a rendered call-to-worship slide: the leader paragraph
holds the label run `"Leader: "` and the sanitized leader text, the people
paragraph the label run `"People: "` and the sanitized people text. -/
structure CtwSlide where
  leaderRuns : List String
  peopleRuns : List String
deriving DecidableEq

/-- `add_call_to_worship_slide`, restricted to the rendered text content. -/
def add_call_to_worship_slide (pair : CtwPair) : CtwSlide :=
  ⟨["Leader: ", sanitize_role_text "leader:" pair.leader],
   ["People: ", sanitize_role_text "people:" pair.people]⟩

/-- The slides `create_call_to_worship_slides_from_dict` emits: one per pair. -/
def create_call_to_worship_slides_from_dict (pairs : List CtwPair) : List CtwSlide :=
  pairs.map add_call_to_worship_slide

/-! ## Deck-assembly traces

Each pipeline is additionally embedded as the sequence of externally
visible events it performs on the background image, the slides and the
output file, in program order, for the temporal claim about cleanup
versus serialization.  The embedding covers the invocations in which the
optional background decodes successfully; `p` names the temporary file
`process_background_image` returns. -/

/-- An observable event of one pipeline invocation. -/
inductive Ev
  | decodeBg (path : String)
  | setBg (background : Option String)
  | removeTemp (path : String)
  | serialize (file : String)
deriving DecidableEq

/-- Event-kind tests. -/
def Ev.isDecode : Ev → Bool
  | .decodeBg _ => true
  | _ => false

def Ev.isSetBg : Ev → Bool
  | .setBg _ => true
  | _ => false

def Ev.isRemove : Ev → Bool
  | .removeTemp _ => true
  | _ => false

def Ev.isSerialize : Ev → Bool
  | .serialize _ => true
  | _ => false

/-- The decode event and per-slide background of one invocation. -/
def bgDecodeEvents (bg : Option String) (p : String) : List Ev :=
  match bg with
  | some _ => [Ev.decodeBg p]
  | none => []

/-- The path every slide's `set_slide_background` receives. -/
def bgPathOf (bg : Option String) (p : String) : Option String :=
  match bg with
  | some _ => some p
  | none => none

/-- The cleanup event, guarded by `if background_image:` as in all three
pipelines. -/
def bgCleanupEvents (bg : Option String) (p : String) : List Ev :=
  match bg with
  | some _ => [Ev.removeTemp p]
  | none => []

/-- Event trace of `create_scripture_slides`: decode the background, set
it on each slide in turn, clean up the temporary file, save the deck. -/
def scriptureTrace (verses : List Verse) (alt? : Option (List Verse))
    (bg : Option String) (p out : String) : List Ev :=
  bgDecodeEvents bg p
  ++ (create_scripture_slides verses alt?).map (fun _ => Ev.setBg (bgPathOf bg p))
  ++ bgCleanupEvents bg p ++ [Ev.serialize out]

/-- Event trace of `create_hymn_slides` (same order of phases). -/
def hymnTrace (lyrics : List LyricSection) (include_cover : Bool)
    (bg : Option String) (p out : String) : List Ev :=
  bgDecodeEvents bg p
  ++ (create_hymn_slides lyrics include_cover).map (fun _ => Ev.setBg (bgPathOf bg p))
  ++ bgCleanupEvents bg p ++ [Ev.serialize out]

/-- Event trace of `create_call_to_worship_slides_from_dict`. -/
def ctwTrace (pairs : List CtwPair) (bg : Option String) (p out : String) : List Ev :=
  bgDecodeEvents bg p
  ++ pairs.map (fun _ => Ev.setBg (bgPathOf bg p))
  ++ bgCleanupEvents bg p ++ [Ev.serialize out]

/-- The ordering the spec asserts: the serialization event strictly
precedes the temp-file removal event. -/
def serializeBeforeRemove (t : List Ev) : Prop :=
  t.findIdx Ev.isSerialize < t.findIdx Ev.isRemove

/-! ## Definitions that restate claims in the spec's words

Each of the following is written from a claim's phrasing, to be compared
against the corresponding definition embedded from the source. -/

/-- The font-size policy with tiers inclusive on the *upper* bound
(`≤ 100 → 58`, `(100, 200] → 52`, `(200, 300] → 44`, `> 300 → 36`), the
policy the code actually implements; contrast with the claimed
lower-bound-inclusive tiers. -/
def fontSizeTiersUpperInclusive (n : Nat) : Nat :=
  if n ≤ 100 then 58
  else if n ≤ 200 then 52
  else if n ≤ 300 then 44
  else 36

/-- Whether a hymn slide is the cover slide. -/
def HymnSlide.isCover : HymnSlide → Bool
  | .cover => true
  | .lyric _ _ => false

/-- The claimed total of lyric slides: the sum over the sections of the
number of non-empty stripped fragments. -/
def lyricSlideTotal (lyrics : List LyricSection) : Nat :=
  (lyrics.map (fun sec => (sectionFragments sec).length)).sum

/-- The transformation the background claim describes: everything up to
and including the *first* comma removed, the payload kept whole when it
has no comma. -/
def afterFirstCommaOrSelf (data : String) : String :=
  if pyContainsChar ',' data then
    String.mk ((data.data.dropWhile (fun c => c != ',')).drop 1)
  else data

/-- Number of `rPr` children the effect-removal loop of `set_run_effects`
would target: children whose tag ends with `effectLst`. -/
def countEffectLst (rPr : List RPrChild) : Nat :=
  rPr.countP (fun c => pyEndsWith "effectLst" c.tag)

/-- Number of `rPr` children whose tag ends with `highlight`. -/
def countHighlight (rPr : List RPrChild) : Nat :=
  rPr.countP (fun c => pyEndsWith "highlight" c.tag)

/-- The ordering claimed for combined-mode scripture slides: strictly
ascending verse numbers, except that the primary-translation slide of a
verse may precede the alternate-translation slide of the same verse. -/
def slideOrd (a b : ScriptureSlide) : Prop :=
  a.verse < b.verse ∨
    (a.verse = b.verse ∧ a.translation = some Translation.nrsvue ∧
      b.translation = some Translation.tmb)

/-- The extraction a leader line contributes in the free-text parse: for a
line whose stripped form starts (case-insensitively) with `leader:`, the
stripped remainder after the seven prefix characters. -/
def leaderLineContent (line : String) : Option String :=
  let l := pyStrip line
  if pyStartsWith "leader:" (pyLower l) then some (pyStrip (pyDrop 7 l)) else none

/-- The extraction a people line contributes in the free-text parse. -/
def peopleLineContent (line : String) : Option String :=
  let l := pyStrip line
  if pyStartsWith "people:" (pyLower l) then some (pyStrip (pyDrop 7 l)) else none

/-- The content of the last leader-matching line of the free text, if any. -/
def lastLeaderContent (text : String) : Option String :=
  ((pySplit "\n" text).filterMap leaderLineContent).getLast?

/-- The content of the last people-matching line of the free text, if any. -/
def lastPeopleContent (text : String) : Option String :=
  ((pySplit "\n" text).filterMap peopleLineContent).getLast?

/-- The stripping the call-to-worship sanitization claim describes:
everything up to and including the first colon removed. -/
def dropThroughFirstColon (v : String) : String :=
  String.mk ((v.data.dropWhile (fun c => c != ':')).drop 1)

/-! ## Helper lemmas -/

set_option maxRecDepth 10000

lemma singleSlides_length (verses : List Verse) :
    (singleSlides verses).length
      = (verses.filter (fun v => pyStrip v.text != "")).length := by
  induction verses with
  | nil => rfl
  | cons v vs ih =>
    simp only [singleSlides, List.filterMap_cons, List.filter_cons] at *
    by_cases h : pyStrip v.text = ""
    · simp [h, ih]
    · simp [h, ih]

lemma flatMap_lyric_countP (lyrics : List LyricSection) :
    (lyrics.flatMap (fun sec =>
        (sectionFragments sec).map (fun t => HymnSlide.lyric sec.page_name t))).countP
      HymnSlide.isLyric = lyricSlideTotal lyrics := by
  induction lyrics with
  | nil => rfl
  | cons sec rest ih =>
    simp only [List.flatMap_cons, List.countP_append, lyricSlideTotal, List.map_cons,
      List.sum_cons] at *
    rw [ih, List.countP_map]
    simp [Function.comp_def, HymnSlide.isLyric]

lemma flatMap_lyric_countP_cover (lyrics : List LyricSection) :
    (lyrics.flatMap (fun sec =>
        (sectionFragments sec).map (fun t => HymnSlide.lyric sec.page_name t))).countP
      HymnSlide.isCover = 0 := by
  induction lyrics with
  | nil => rfl
  | cons sec rest ih =>
    simp only [List.flatMap_cons, List.countP_append, ih, List.countP_map]
    simp [Function.comp_def, HymnSlide.isCover]

lemma flatMap_lyric_length (lyrics : List LyricSection) :
    (lyrics.flatMap (fun sec =>
        (sectionFragments sec).map (fun t => HymnSlide.lyric sec.page_name t))).length
      = lyricSlideTotal lyrics := by
  rw [List.length_flatMap]
  simp [lyricSlideTotal, Function.comp_def]

/-! ## Claim C1 -/

/-- Claim C1, counterexample: a text of exactly 100 characters receives the
58 pt (largest) tier, not the 52 pt tier the lower-bound-inclusive reading
predicts — the code's comparisons `len(text) > 100` etc. make the tier
boundaries inclusive on the upper bound. -/
theorem contentFontSize_boundary_counterexample :
    (String.mk (List.replicate 100 'a')).length = 100 ∧
    contentFontSize (String.mk (List.replicate 100 'a')) = 58 ∧
    contentFontSize (String.mk (List.replicate 100 'a')) ≠ 52 := by
  refine ⟨by decide, by decide, by decide⟩

/-- Claim C1 (amended): the content font-size tier is a pure function of
the text's length with boundaries inclusive on the *upper* bound: length
`≤ 100` yields 58 pt, `(100, 200]` yields 52 pt, `(200, 300]` yields
44 pt, `> 300` yields 36 pt; a text of exactly 100, 200 or 300 characters
falls into the larger-font tier. -/
theorem contentFontSize_tiers_upper_inclusive (text : String) :
    contentFontSize text = fontSizeTiersUpperInclusive text.length := by
  unfold contentFontSize fontSizeTiersUpperInclusive
  split_ifs <;> omega

/-! ## Claim C4 -/

/-- Claim C4: for a non-empty verse list and no alternate translation, the
deck has exactly one slide per verse whose stripped text is non-empty. -/
theorem scripture_single_mode_slide_count (verses : List Verse) (_hne : verses ≠ []) :
    (create_scripture_slides verses none).length
      = (verses.filter (fun v => pyStrip v.text != "")).length := by
  simpa [create_scripture_slides] using singleSlides_length verses

/-- Witness for the claim C4 theorem at a concrete verse list. -/
theorem scripture_single_mode_slide_count_witness :
    ([⟨1, " a "⟩, ⟨2, "  "⟩, ⟨3, "c"⟩] : List Verse) ≠ [] ∧
    (create_scripture_slides [⟨1, " a "⟩, ⟨2, "  "⟩, ⟨3, "c"⟩] none).length
      = (([⟨1, " a "⟩, ⟨2, "  "⟩, ⟨3, "c"⟩] : List Verse).filter
          (fun v => pyStrip v.text != "")).length :=
  ⟨by decide, scripture_single_mode_slide_count _ (by decide)⟩

/-! ## Claim C5 -/

/-- Claim C5: with or without the cover, the number of lyric slides equals
the sum over the sections of the number of non-empty stripped fragments of
the section's text split at the `<br>` markers; when the cover is
requested there is exactly one cover slide and it is the first slide,
when it is not requested there is none. -/
theorem hymn_lyric_slide_count (lyrics : List LyricSection) :
    ((create_hymn_slides lyrics true).countP HymnSlide.isLyric = lyricSlideTotal lyrics) ∧
    ((create_hymn_slides lyrics false).countP HymnSlide.isLyric = lyricSlideTotal lyrics) ∧
    (create_hymn_slides lyrics true).head? = some HymnSlide.cover ∧
    (create_hymn_slides lyrics true).countP HymnSlide.isCover = 1 ∧
    (create_hymn_slides lyrics false).countP HymnSlide.isCover = 0 := by
  refine ⟨?_, ?_, ?_, ?_, ?_⟩ <;>
    simp [create_hymn_slides, flatMap_lyric_countP, flatMap_lyric_countP_cover,
      HymnSlide.isLyric, HymnSlide.isCover]

/-! ## Claim C8 -/

/-- Claim C8: the hymn endpoint calls `create_hymn_slides` without passing
`include_cover`, whose default is `True`, so the produced deck always
starts with the cover slide and its slide count is one more than the
lyric slide count. -/
theorem hymn_endpoint_cover_first (lyrics : List LyricSection) :
    include_cover_default = true ∧
    (generate_hymn_slides_endpoint_deck lyrics).head? = some HymnSlide.cover ∧
    (generate_hymn_slides_endpoint_deck lyrics).length = 1 + lyricSlideTotal lyrics := by
  refine ⟨rfl, ?_, ?_⟩
  · simp [generate_hymn_slides_endpoint_deck, create_hymn_slides, include_cover_default]
  · show (generate_hymn_slides_endpoint_deck lyrics).length = 1 + lyricSlideTotal lyrics
    simp only [generate_hymn_slides_endpoint_deck, create_hymn_slides, include_cover_default,
      if_true, List.singleton_append, List.length_cons, flatMap_lyric_length]
    omega

/-! ## Claim C2 -/

/-- Claim C2, counterexample: in the scripture pipeline the temporary
background file is removed *before* the deck is serialized
(`cleanup_temp_file` on line 198 precedes `save_presentation` on line 200
of `scripture_slides.py`), so serialization does not precede removal. -/
theorem background_cleanup_order_counterexample :
    ¬ serializeBeforeRemove
        (scriptureTrace [⟨1, "The Lord is my shepherd"⟩] none (some "QUJD")
          "/tmp/bg.png" "/tmp/out.pptx") := by
  unfold serializeBeforeRemove
  decide

/-- Claim C2 (amended): in every pipeline invocation with a background
image supplied (and decoding succeeding), the image is decoded to a
temporary file exactly once per deck and first of all, that one path is
passed to every slide's background, then the temporary file is removed,
and then — not before — the deck is serialized to the output file: each
trace is exactly decode, one background-set per slide with the same path,
removal, serialization. -/
theorem background_trace_shape (verses : List Verse) (alt? : Option (List Verse))
    (lyrics : List LyricSection) (ic : Bool) (pairs : List CtwPair) (b p out : String) :
    scriptureTrace verses alt? (some b) p out
      = Ev.decodeBg p ::
        (List.replicate (create_scripture_slides verses alt?).length (Ev.setBg (some p))
          ++ [Ev.removeTemp p, Ev.serialize out]) ∧
    hymnTrace lyrics ic (some b) p out
      = Ev.decodeBg p ::
        (List.replicate (create_hymn_slides lyrics ic).length (Ev.setBg (some p))
          ++ [Ev.removeTemp p, Ev.serialize out]) ∧
    ctwTrace pairs (some b) p out
      = Ev.decodeBg p ::
        (List.replicate pairs.length (Ev.setBg (some p))
          ++ [Ev.removeTemp p, Ev.serialize out]) := by
  refine ⟨?_, ?_, ?_⟩ <;>
    simp [scriptureTrace, hymnTrace, ctwTrace, bgDecodeEvents, bgCleanupEvents,
      bgPathOf, List.map_const']

/-! ## Claim C6 -/

lemma effectLst_tag_endsWith (es : List EffectEntry) :
    pyEndsWith "effectLst" (RPrChild.effectLst es).tag = true := by
  show pyEndsWith "effectLst" (drawingmlNS ++ "effectLst") = true
  decide

lemma highlight_tag_endsWith (color : Rgb) :
    pyEndsWith "highlight" (RPrChild.highlight color).tag = true := by
  show pyEndsWith "highlight" (drawingmlNS ++ "highlight") = true
  decide

lemma countP_filter_not (p : RPrChild → Bool) (l : List RPrChild) :
    (l.filter (fun c => !(p c))).countP p = 0 := by
  induction l with
  | nil => rfl
  | cons x xs ih =>
    by_cases h : p x = true
    · simp [List.filter_cons, h, ih]
    · simp only [Bool.not_eq_true] at h
      simp [List.filter_cons, h, List.countP_cons, ih]

lemma effectEntries_ne_empty (p : EffectParams)
    (hp : p.glow_rgb.isSome ∨ p.inner_shadow_rgb.isSome ∨ p.outer_shadow_rgb.isSome) :
    (effectEntries p).isEmpty = false := by
  unfold effectEntries
  rcases hp with h | h | h <;>
    obtain ⟨c, hc⟩ := Option.isSome_iff_exists.mp h <;>
      rw [hc] <;> simp

lemma countEffectLst_set_run_effects (p : EffectParams) (rPr : List RPrChild)
    (h : (effectEntries p).isEmpty = false) :
    countEffectLst (set_run_effects p rPr) = 1 := by
  unfold set_run_effects countEffectLst
  rw [if_neg (by simp [h])]
  rw [List.countP_append, countP_filter_not]
  simp [List.countP_cons, effectLst_tag_endsWith]

lemma countHighlight_set_run_highlight (color : Rgb) (rPr : List RPrChild) :
    countHighlight (set_run_highlight color rPr) = 1 := by
  unfold set_run_highlight countHighlight
  rw [List.countP_append, countP_filter_not]
  simp [List.countP_cons, highlight_tag_endsWith]

/-- Claim C6: iterating `set_run_effects` (with at least one effect color
given) any `n ≥ 1` times leaves exactly one `effectLst` child on the run's
property node, and iterating `set_run_highlight` any `n ≥ 1` times leaves
exactly one `highlight` child, because each application removes all prior
nodes of its kind before appending a fresh one. -/
theorem effect_and_highlight_idempotent (p : EffectParams) (color : Rgb)
    (rPr : List RPrChild) (n : Nat) (hn : 1 ≤ n)
    (hp : p.glow_rgb.isSome ∨ p.inner_shadow_rgb.isSome ∨ p.outer_shadow_rgb.isSome) :
    countEffectLst ((set_run_effects p)^[n] rPr) = 1 ∧
    countHighlight ((set_run_highlight color)^[n] rPr) = 1 := by
  obtain ⟨m, rfl⟩ : ∃ m, n = m + 1 := ⟨n - 1, by omega⟩
  constructor
  · rw [Function.iterate_succ_apply']
    exact countEffectLst_set_run_effects p _ (effectEntries_ne_empty p hp)
  · rw [Function.iterate_succ_apply']
    exact countHighlight_set_run_highlight color _

/-- Witness for claim C6: the glow-only parameters used by the
call-to-worship renderer, iterated three times over a property node that
already carries a stray effect list. -/
theorem effect_and_highlight_idempotent_witness :
    1 ≤ 3 ∧
    ((⟨some ⟨255, 255, 255⟩, 76200, none, 0, 0, none, 0, 0, 0⟩ : EffectParams).glow_rgb.isSome ∨
      (⟨some ⟨255, 255, 255⟩, 76200, none, 0, 0, none, 0, 0, 0⟩ : EffectParams).inner_shadow_rgb.isSome ∨
      (⟨some ⟨255, 255, 255⟩, 76200, none, 0, 0, none, 0, 0, 0⟩ : EffectParams).outer_shadow_rgb.isSome) ∧
    (countEffectLst ((set_run_effects
        ⟨some ⟨255, 255, 255⟩, 76200, none, 0, 0, none, 0, 0, 0⟩)^[3]
          [RPrChild.node "x", RPrChild.effectLst []]) = 1 ∧
      countHighlight ((set_run_highlight ⟨255, 255, 0⟩)^[3]
          [RPrChild.node "x", RPrChild.effectLst []]) = 1) :=
  ⟨by decide, by decide,
    effect_and_highlight_idempotent _ _ [RPrChild.node "x", RPrChild.effectLst []] 3
      (by decide) (by decide)⟩

/-! ## Claim C7 -/

lemma pySplitFuel_no_sep (c : Char) :
    ∀ (l : List Char) (fuel : Nat) (cur : List Char), l.length ≤ fuel →
      l.contains c = false →
      pySplitFuel [c] fuel l cur = [cur.reverse ++ l] := by
  intro l
  induction l with
  | nil =>
    intro fuel cur _ _
    cases fuel <;> simp [pySplitFuel]
  | cons x xs ih =>
    intro fuel cur hlen hc
    rw [List.contains_cons, Bool.or_eq_false_iff] at hc
    cases fuel with
    | zero => simp at hlen
    | succ f =>
      have hstep : pySplitFuel [c] (f + 1) (x :: xs) cur
          = pySplitFuel [c] f xs (x :: cur) := by
        simp [pySplitFuel, List.isPrefixOf, hc.1]
      rw [hstep, ih f (x :: cur) (by simp at hlen; omega) hc.2]
      simp

lemma pySplitFuel_one_sep (c : Char) :
    ∀ (pre post : List Char) (fuel : Nat) (cur : List Char),
      (pre ++ c :: post).length ≤ fuel →
      pre.contains c = false → post.contains c = false →
      pySplitFuel [c] fuel (pre ++ c :: post) cur = [cur.reverse ++ pre, post] := by
  intro pre
  induction pre with
  | nil =>
    intro post fuel cur hlen hpre hpost
    cases fuel with
    | zero => simp at hlen
    | succ f =>
      have hstep : pySplitFuel [c] (f + 1) (c :: post) cur
          = cur.reverse :: pySplitFuel [c] f post [] := by
        simp [pySplitFuel, List.isPrefixOf]
      rw [List.nil_append, hstep,
        pySplitFuel_no_sep c post f [] (by simp at hlen; omega) hpost]
      simp
  | cons x xs ih =>
    intro post fuel cur hlen hpre hpost
    rw [List.contains_cons, Bool.or_eq_false_iff] at hpre
    cases fuel with
    | zero => simp at hlen
    | succ f =>
      have hstep : pySplitFuel [c] (f + 1) (x :: (xs ++ c :: post)) cur
          = pySplitFuel [c] f (xs ++ c :: post) (x :: cur) := by
        simp [pySplitFuel, List.isPrefixOf, hpre.1]
      rw [List.cons_append, hstep,
        ih post f (x :: cur) (by simp at hlen ⊢; omega) hpre.2 hpost]
      simp

lemma pySplitFuel_two_sep (c : Char) :
    ∀ (pre mid post : List Char) (fuel : Nat) (cur : List Char),
      (pre ++ c :: (mid ++ c :: post)).length ≤ fuel →
      pre.contains c = false → mid.contains c = false → post.contains c = false →
      pySplitFuel [c] fuel (pre ++ c :: (mid ++ c :: post)) cur
        = [cur.reverse ++ pre, mid, post] := by
  intro pre
  induction pre with
  | nil =>
    intro mid post fuel cur hlen hpre hmid hpost
    cases fuel with
    | zero => simp at hlen
    | succ f =>
      have hstep : pySplitFuel [c] (f + 1) (c :: (mid ++ c :: post)) cur
          = cur.reverse :: pySplitFuel [c] f (mid ++ c :: post) [] := by
        simp [pySplitFuel, List.isPrefixOf]
      rw [List.nil_append, hstep,
        pySplitFuel_one_sep c mid post f [] (by simp at hlen ⊢; omega) hmid hpost]
      simp
  | cons x xs ih =>
    intro mid post fuel cur hlen hpre hmid hpost
    rw [List.contains_cons, Bool.or_eq_false_iff] at hpre
    cases fuel with
    | zero => simp at hlen
    | succ f =>
      have hstep : pySplitFuel [c] (f + 1) (x :: (xs ++ c :: (mid ++ c :: post))) cur
          = pySplitFuel [c] f (xs ++ c :: (mid ++ c :: post)) (x :: cur) := by
        simp [pySplitFuel, List.isPrefixOf, hpre.1]
      rw [List.cons_append, hstep,
        ih mid post f (x :: cur) (by simp at hlen ⊢; omega) hpre.2 hmid hpost]
      simp

lemma contains_append_sep (c : Char) (pre post : List Char) :
    (pre ++ c :: post).contains c = true := by
  induction pre with
  | nil => simp [List.contains_cons]
  | cons x xs ih => simp [List.contains_cons, ih]

lemma decodedPayload_one_comma (pre post : List Char)
    (hpre : pre.contains ',' = false) (hpost : post.contains ',' = false) :
    decodedPayload (String.mk (pre ++ ',' :: post)) = String.mk post := by
  unfold decodedPayload
  rw [if_pos (by simp [pyContainsChar, contains_append_sep])]
  unfold pySplit pySplitL
  rw [show (String.mk (pre ++ ',' :: post)).data = pre ++ ',' :: post from rfl,
    show (",".data : List Char) = [','] from rfl]
  rw [pySplitFuel_one_sep ',' pre post _ [] (Nat.le_refl _) hpre hpost]
  simp

lemma decodedPayload_two_commas (pre mid post : List Char)
    (hpre : pre.contains ',' = false) (hmid : mid.contains ',' = false)
    (hpost : post.contains ',' = false) :
    decodedPayload (String.mk (pre ++ ',' :: (mid ++ ',' :: post))) = String.mk mid := by
  unfold decodedPayload
  rw [if_pos (by simp [pyContainsChar, contains_append_sep])]
  unfold pySplit pySplitL
  rw [show (String.mk (pre ++ ',' :: (mid ++ ',' :: post))).data
        = pre ++ ',' :: (mid ++ ',' :: post) from rfl,
    show (",".data : List Char) = [','] from rfl]
  rw [pySplitFuel_two_sep ',' pre mid post _ [] (Nat.le_refl _) hpre hmid hpost]
  simp

/-- Claim C7, counterexample: for a payload with two commas the decoder
receives the segment *between* the first and second commas, not everything
after the first comma as the claim's "strips everything up to a comma"
reading asserts — `data.split(',')[1]` selects the second comma-delimited
piece. -/
theorem background_prefix_strip_counterexample :
    decodedPayload "a,QUJD,RUZH" = "QUJD" ∧
    afterFirstCommaOrSelf "a,QUJD,RUZH" = "QUJD,RUZH" ∧
    decodedPayload "a,QUJD,RUZH" ≠ afterFirstCommaOrSelf "a,QUJD,RUZH" := by
  refine ⟨by decide, by decide, by decide⟩

/-- Claim C7 (amended): background resolution passes to the base64 decoder
the second comma-delimited segment of the payload — for a standard data
URL (one comma: no comma in the stripped header, none in the base64 body)
this is exactly everything after the comma; a payload with a second comma
loses everything from that comma on; and whenever decoding fails the
resolver returns no path rather than raising, so the slide background
falls back to solid white. -/
theorem background_resolution_behavior (pre mid post : List Char)
    (decode : String → Option (List Nat)) (tmpPath data : String)
    (fe : String → Bool)
    (hpre : pre.contains ',' = false) (hmid : mid.contains ',' = false)
    (hpost : post.contains ',' = false)
    (hfail : decode (decodedPayload data) = none) :
    decodedPayload (String.mk (pre ++ ',' :: post)) = String.mk post ∧
    decodedPayload (String.mk (pre ++ ',' :: (mid ++ ',' :: post))) = String.mk mid ∧
    process_background_image decode tmpPath data = none ∧
    set_slide_background fe none = SlideBackground.white := by
  refine ⟨decodedPayload_one_comma pre post hpre hpost,
    decodedPayload_two_commas pre mid post hpre hmid hpost, ?_, rfl⟩
  unfold process_background_image
  by_cases hd : data = ""
  · rw [if_pos hd]
  · rw [if_neg hd, hfail]

/-- Witness for the claim C7 theorem: a data-URL header, a base64 body, a
stray third segment, and a decoder that always fails. -/
theorem background_resolution_behavior_witness :
    ("data:image/png;base64".data.contains ',' = false) ∧
    ("QUJD".data.contains ',' = false) ∧
    ("RUZH".data.contains ',' = false) ∧
    ((fun _ => (none : Option (List Nat))) (decodedPayload "%%%") = none) ∧
    (decodedPayload (String.mk ("data:image/png;base64".data ++ ',' :: "RUZH".data))
        = String.mk "RUZH".data ∧
      decodedPayload (String.mk
          ("data:image/png;base64".data ++ ',' :: ("QUJD".data ++ ',' :: "RUZH".data)))
        = String.mk "QUJD".data ∧
      process_background_image (fun _ => (none : Option (List Nat))) "/tmp/bg.png" "%%%" = none ∧
      set_slide_background (fun _ => false) none = SlideBackground.white) :=
  ⟨by decide, by decide, by decide, rfl,
    background_resolution_behavior "data:image/png;base64".data "QUJD".data "RUZH".data
      (fun _ => none) "/tmp/bg.png" "%%%" (fun _ => false)
      (by decide) (by decide) (by decide) rfl⟩

/-! ## Claim C3 -/

lemma sortedKeys_sorted_lt (verses : List Verse) :
    (sortedKeys verses).Sorted (· < ·) := by
  have hs : (sortedKeys verses).Sorted (· ≤ ·) := List.sorted_insertionSort _ _
  have hn : (sortedKeys verses).Nodup :=
    (List.perm_insertionSort _ _).nodup_iff.mpr (List.nodup_dedup _)
  exact hs.lt_of_le hn

lemma combinedGroup_verse_eq (verses alt : List Verse) (k : Nat) :
    ∀ s ∈ combinedGroup verses alt k, s.verse = k := by
  intro s hs
  unfold combinedGroup at hs
  rcases List.mem_append.mp hs with h | h
  · by_cases hn : nrsvueTextAt verses k = ""
    · rw [if_pos hn] at h; cases h
    · rw [if_neg hn] at h
      rw [List.mem_singleton.mp h]
  · by_cases ht : tmbTextAt alt k = ""
    · rw [if_pos ht] at h; cases h
    · rw [if_neg ht] at h
      rw [List.mem_singleton.mp h]

lemma combinedGroup_pairwise (verses alt : List Verse) (k : Nat) :
    (combinedGroup verses alt k).Pairwise slideOrd := by
  unfold combinedGroup
  split_ifs <;> simp [slideOrd]

lemma pairwise_flatMap_groups (keys : List Nat) (g : Nat → List ScriptureSlide)
    (hmem : ∀ k, ∀ s ∈ g k, s.verse = k)
    (hg : ∀ k, (g k).Pairwise slideOrd)
    (hs : keys.Sorted (· < ·)) :
    (keys.flatMap g).Pairwise slideOrd := by
  induction keys with
  | nil => simp
  | cons k ks ih =>
    rw [List.flatMap_cons, List.pairwise_append]
    refine ⟨hg k, ih hs.of_cons, ?_⟩
    intro a ha b hb
    rcases List.mem_flatMap.mp hb with ⟨k2, hk2, hbk⟩
    left
    rw [hmem k a ha, hmem k2 b hbk]
    exact List.rel_of_sorted_cons hs k2 hk2

lemma combined_verse_mem (verses alt : List Verse) (s : ScriptureSlide)
    (hs : s ∈ combinedSlides verses alt) :
    s.verse ∈ verses.map (fun v => v.verse) := by
  unfold combinedSlides at hs
  rcases List.mem_flatMap.mp hs with ⟨k, hk, hsk⟩
  rw [combinedGroup_verse_eq verses alt k s hsk]
  have h1 : k ∈ validKeys verses := ((List.perm_insertionSort _ _).mem_iff).mp hk
  have h2 := List.dedup_subset _ h1
  rcases List.mem_map.mp h2 with ⟨v, hv, rfl⟩
  exact List.mem_map.mpr ⟨v, (List.mem_filter.mp hv).1, rfl⟩

/-- Claim C3: with a non-empty alternate-translation list, the emitted
slides are pairwise ordered by ascending verse number, with the only
same-verse adjacency being a primary-translation slide before the
alternate-translation slide of the same verse; and a verse number that
does not occur in the primary list contributes no slide at all. -/
theorem scripture_combined_order (verses alt : List Verse) (halt : alt ≠ []) :
    (create_scripture_slides verses (some alt)).Pairwise slideOrd ∧
    ∀ k, k ∉ verses.map (fun v => v.verse) →
      ∀ s ∈ create_scripture_slides verses (some alt), s.verse ≠ k := by
  have hne : alt.isEmpty = false := by simpa [List.isEmpty_iff] using halt
  constructor
  · simp only [create_scripture_slides, hne, Bool.false_eq_true, if_false]
    exact pairwise_flatMap_groups _ _ (combinedGroup_verse_eq verses alt)
      (combinedGroup_pairwise verses alt) (sortedKeys_sorted_lt verses)
  · intro k hk s hs
    simp only [create_scripture_slides, hne, Bool.false_eq_true, if_false] at hs
    intro hske
    exact hk (hske ▸ combined_verse_mem verses alt s hs)

/-- Witness for the claim C3 theorem: primary verses 2 and 1, alternate
verses 1 and 5 (verse 5 has no primary entry and produces no slide). -/
theorem scripture_combined_order_witness :
    ([⟨1, "ta"⟩, ⟨5, "t5"⟩] : List Verse) ≠ [] ∧
    ((create_scripture_slides [⟨2, "b"⟩, ⟨1, "a"⟩]
        (some [⟨1, "ta"⟩, ⟨5, "t5"⟩])).Pairwise slideOrd ∧
      ∀ k, k ∉ ([⟨2, "b"⟩, ⟨1, "a"⟩] : List Verse).map (fun v => v.verse) →
        ∀ s ∈ create_scripture_slides [⟨2, "b"⟩, ⟨1, "a"⟩]
            (some [⟨1, "ta"⟩, ⟨5, "t5"⟩]), s.verse ≠ k) :=
  ⟨by decide, scripture_combined_order [⟨2, "b"⟩, ⟨1, "a"⟩] [⟨1, "ta"⟩, ⟨5, "t5"⟩] (by decide)⟩

/-! ## Claim C9 -/

lemma leader_people_not_both (s : String) :
    pyStartsWith "leader:" s = true → pyStartsWith "people:" s = false := by
  intro h
  by_contra hp
  rw [Bool.not_eq_false] at hp
  unfold pyStartsWith at h hp
  have h1 : ("leader:".data : List Char) <+: s.data := List.isPrefixOf_iff_prefix.mp h
  have h2 : ("people:".data : List Char) <+: s.data := List.isPrefixOf_iff_prefix.mp hp
  rcases h1 with ⟨t1, ht1⟩
  rcases h2 with ⟨t2, ht2⟩
  rw [show ("leader:".data : List Char) = 'l' :: "eader:".data from rfl,
    List.cons_append] at ht1
  rw [show ("people:".data : List Char) = 'p' :: "eople:".data from rfl,
    List.cons_append] at ht2
  rw [← ht1] at ht2
  have : ('p' : Char) = 'l' := (List.cons.injEq _ _ _ _ ▸ ht2).1
  exact absurd this (by decide)

lemma ctw_fold_eq (lines : List String) :
    ∀ a b : String,
      lines.foldl ctwLineStep (a, b)
        = ((lines.filterMap leaderLineContent).getLastD a,
           (lines.filterMap peopleLineContent).getLastD b) := by
  induction lines with
  | nil => intro a b; rfl
  | cons x xs ih =>
    intro a b
    rw [List.foldl_cons]
    by_cases hL : pyStartsWith "leader:" (pyLower (pyStrip x)) = true
    · have hP : pyStartsWith "people:" (pyLower (pyStrip x)) = false :=
        leader_people_not_both _ hL
      have hstep : ctwLineStep (a, b) x = (pyStrip (pyDrop 7 (pyStrip x)), b) := by
        simp [ctwLineStep, hL]
      have hLc : leaderLineContent x = some (pyStrip (pyDrop 7 (pyStrip x))) := by
        simp [leaderLineContent, hL]
      have hPc : peopleLineContent x = none := by
        simp [peopleLineContent, hP]
      have hfm : List.filterMap leaderLineContent (x :: xs)
          = pyStrip (pyDrop 7 (pyStrip x)) :: List.filterMap leaderLineContent xs := by
        simp [List.filterMap_cons, hLc]
      have hfp : List.filterMap peopleLineContent (x :: xs)
          = List.filterMap peopleLineContent xs := by
        simp [List.filterMap_cons, hPc]
      rw [hstep, ih, hfm, hfp, List.getLastD_cons]
    · by_cases hP : pyStartsWith "people:" (pyLower (pyStrip x)) = true
      · have hstep : ctwLineStep (a, b) x = (a, pyStrip (pyDrop 7 (pyStrip x))) := by
          simp [ctwLineStep, hL, hP]
        have hLc : leaderLineContent x = none := by
          simp [leaderLineContent, hL]
        have hPc : peopleLineContent x = some (pyStrip (pyDrop 7 (pyStrip x))) := by
          simp [peopleLineContent, hP]
        have hfm : List.filterMap leaderLineContent (x :: xs)
            = List.filterMap leaderLineContent xs := by
          simp [List.filterMap_cons, hLc]
        have hfp : List.filterMap peopleLineContent (x :: xs)
            = pyStrip (pyDrop 7 (pyStrip x)) :: List.filterMap peopleLineContent xs := by
          simp [List.filterMap_cons, hPc]
        rw [hstep, ih, hfm, hfp, List.getLastD_cons]
      · have hstep : ctwLineStep (a, b) x = (a, b) := by
          simp [ctwLineStep, hL, hP]
        have hLc : leaderLineContent x = none := by
          simp [leaderLineContent, hL]
        have hPc : peopleLineContent x = none := by
          simp [peopleLineContent, hP]
        have hfm : List.filterMap leaderLineContent (x :: xs)
            = List.filterMap leaderLineContent xs := by
          simp [List.filterMap_cons, hLc]
        have hfp : List.filterMap peopleLineContent (x :: xs)
            = List.filterMap peopleLineContent xs := by
          simp [List.filterMap_cons, hPc]
        rw [hstep, ih, hfm, hfp]

/-- Claim C9, counterexample: the free text consisting of the single line
`Leader:` *does* match the leader prefix (its extracted content is the
empty string), yet the parser falls back to using the entire text as the
leader value, because the fallback triggers whenever both extracted
values are empty — not only when no line matches. -/
theorem ctw_freetext_counterexample :
    lastLeaderContent "Leader:" = some "" ∧
    parse_ctw_text "Leader:" = [⟨"Leader:", ""⟩] ∧
    parse_ctw_text "Leader:" ≠ [⟨"", ""⟩] := by
  refine ⟨by decide, by decide, by decide⟩

/-- Claim C9 (amended): for a call-to-worship request with no pairs and a
non-empty free text, the parser keeps the content of the last line
starting with `leader:` and of the last line starting with `people:`
(case-insensitive) and produces exactly one pair — hence exactly one
slide — regardless of how many leader/people line pairs the text
contains; the entire text becomes the leader line of a single slide with
an empty people line exactly when the two kept contents are both empty —
in particular when no line matches either prefix, but also when every
matching line carries nothing after its prefix. -/
theorem ctw_freetext_parse (text : String) (htext : text ≠ "") :
    (parse_ctw_text text).length = 1 ∧
    endpoint_ctw_pairs [] text = some (parse_ctw_text text) ∧
    parse_ctw_text text
      = (if (lastLeaderContent text).getD "" ≠ "" ∨ (lastPeopleContent text).getD "" ≠ "" then
          [⟨(lastLeaderContent text).getD "", (lastPeopleContent text).getD ""⟩]
        else [⟨text, ""⟩]) ∧
    (create_call_to_worship_slides_from_dict (parse_ctw_text text)).length = 1 := by
  refine ⟨?_, ?_, ?_, ?_⟩
  · unfold parse_ctw_text
    dsimp only
    split_ifs <;> rfl
  · unfold endpoint_ctw_pairs
    simp [htext]
  · unfold parse_ctw_text lastLeaderContent lastPeopleContent
    rw [ctw_fold_eq]
    simp [List.getLastD_eq_getLast?]
  · unfold create_call_to_worship_slides_from_dict
    rw [List.length_map]
    unfold parse_ctw_text
    dsimp only
    split_ifs <;> rfl

/-- Witness for the claim C9 theorem at the spec's own example text. -/
theorem ctw_freetext_parse_witness :
    ("Leader: Rejoice\nPeople: Amen" : String) ≠ "" ∧
    ((parse_ctw_text "Leader: Rejoice\nPeople: Amen").length = 1 ∧
      endpoint_ctw_pairs [] "Leader: Rejoice\nPeople: Amen"
        = some (parse_ctw_text "Leader: Rejoice\nPeople: Amen") ∧
      parse_ctw_text "Leader: Rejoice\nPeople: Amen"
        = (if (lastLeaderContent "Leader: Rejoice\nPeople: Amen").getD "" ≠ ""
              ∨ (lastPeopleContent "Leader: Rejoice\nPeople: Amen").getD "" ≠ "" then
            [⟨(lastLeaderContent "Leader: Rejoice\nPeople: Amen").getD "",
              (lastPeopleContent "Leader: Rejoice\nPeople: Amen").getD ""⟩]
          else [⟨"Leader: Rejoice\nPeople: Amen", ""⟩]) ∧
      (create_call_to_worship_slides_from_dict
          (parse_ctw_text "Leader: Rejoice\nPeople: Amen")).length = 1) :=
  ⟨by decide, ctw_freetext_parse "Leader: Rejoice\nPeople: Amen" (by decide)⟩

/-! ## Claim C10 -/

lemma toNat_ofNat_of_valid (n : Nat) (h : n.isValidChar) : (Char.ofNat n).toNat = n := by
  simp [Char.ofNat, h, Char.ofNatAux, Char.toNat, UInt32.toNat]

lemma asciiLowerChar_eq_colon {c : Char} (h : asciiLowerChar c = ':') : c = ':' := by
  unfold asciiLowerChar at h
  by_cases hg : (65 ≤ c.toNat && c.toNat ≤ 90) = true
  · rw [if_pos hg] at h
    exfalso
    have hb : 65 ≤ c.toNat ∧ c.toNat ≤ 90 := by simpa using hg
    have hv : (c.toNat + 32).isValidChar := Or.inl (by omega)
    have h2 := congrArg Char.toNat h
    rw [toNat_ofNat_of_valid _ hv] at h2
    have h58 : (':' : Char).toNat = 58 := rfl
    omega
  · rwa [if_neg hg] at h

lemma mem_of_mem_pyStripL {x : Char} {l : List Char} (h : x ∈ pyStripL l) : x ∈ l := by
  unfold pyStripL pyLStripL at h
  have h1 : x ∈ (List.dropWhile isWsChar l.reverse).reverse :=
    (List.dropWhile_sublist _).subset h
  rw [List.mem_reverse] at h1
  have h2 : x ∈ l.reverse := (List.dropWhile_sublist _).subset h1
  rwa [List.mem_reverse] at h2

lemma contains_colon_of_startsWith (role v : String)
    (hrole : ':' ∈ role.data)
    (h : pyStartsWith role (pyLower (pyStrip v)) = true) :
    v.data.contains ':' = true := by
  unfold pyStartsWith at h
  have hpre : role.data <+: (pyLower (pyStrip v)).data := List.isPrefixOf_iff_prefix.mp h
  have h1 : ':' ∈ (pyLower (pyStrip v)).data := hpre.subset hrole
  rw [show (pyLower (pyStrip v)).data = (pyStrip v).data.map asciiLowerChar from rfl] at h1
  rcases List.mem_map.mp h1 with ⟨ch, hch, hlow⟩
  have hc : ch = ':' := asciiLowerChar_eq_colon hlow
  have h2 : ':' ∈ v.data := hc ▸ mem_of_mem_pyStripL hch
  exact List.elem_iff.mpr h2

lemma pySplitOnceAux_found (c : Char) :
    ∀ (l cur : List Char), l.contains c = true →
      pySplitOnceAux [c] l cur
        = [cur.reverse ++ l.takeWhile (fun x => x != c),
           (l.dropWhile (fun x => x != c)).drop 1] := by
  intro l
  induction l with
  | nil => intro cur h; simp at h
  | cons x xs ih =>
    intro cur h
    by_cases hx : (c == x) = true
    · have hxe : x = c := (beq_iff_eq.mp hx).symm
      have hpc : ([c] : List Char).isPrefixOf (x :: xs) = true := by
        simp [List.isPrefixOf, hx]
      have hne2 : (x != c) = false := by simp [hxe]
      simp [pySplitOnceAux, hpc, List.takeWhile_cons, List.dropWhile_cons, hne2]
    · have hxs : xs.contains c = true := by
        rw [List.contains_cons, Bool.or_eq_true] at h
        tauto
      have hne : (x != c) = true := by
        rw [bne_iff_ne]
        intro hxe
        exact hx (by simp [hxe])
      have hstep : pySplitOnceAux [c] (x :: xs) cur = pySplitOnceAux [c] xs (x :: cur) := by
        simp [pySplitOnceAux, List.isPrefixOf, hx]
      rw [hstep, ih (x :: cur) hxs]
      simp [List.takeWhile_cons, List.dropWhile_cons, hne]

lemma splitOnce_last_eq (v : String) (hc : v.data.contains ':' = true) :
    pyLastString (pySplitOnce ":" v) = dropThroughFirstColon v := by
  unfold pyLastString pySplitOnce dropThroughFirstColon
  rw [show (":".data : List Char) = [':'] from rfl,
    pySplitOnceAux_found ':' v.data [] hc]
  rfl

/-- Claim C10: the two sanitizations act independently on every pair —
if the pair's Leader value, after stripping and lowering, begins with
`leader:`, then the rendered leader run is the value with everything up
to and including the first colon removed (and the following whitespace
left-stripped), and likewise, if the People value so begins with
`people:`, the same stripping is applied to it — so role prefixes
supplied in either pair value are not rendered twice. -/
theorem ctw_role_prefix_stripping (pair : CtwPair) :
    (pyStartsWith "leader:" (pyLower (pyStrip pair.leader)) = true →
      (add_call_to_worship_slide pair).leaderRuns
        = ["Leader: ", pyLStrip (dropThroughFirstColon pair.leader)]) ∧
    (pyStartsWith "people:" (pyLower (pyStrip pair.people)) = true →
      (add_call_to_worship_slide pair).peopleRuns
        = ["People: ", pyLStrip (dropThroughFirstColon pair.people)]) := by
  constructor
  · intro hL
    show ["Leader: ", sanitize_role_text "leader:" pair.leader]
      = ["Leader: ", pyLStrip (dropThroughFirstColon pair.leader)]
    unfold sanitize_role_text
    rw [if_pos hL,
      splitOnce_last_eq _ (contains_colon_of_startsWith "leader:" _ (by decide) hL)]
  · intro hP
    show ["People: ", sanitize_role_text "people:" pair.people]
      = ["People: ", pyLStrip (dropThroughFirstColon pair.people)]
    unfold sanitize_role_text
    rw [if_pos hP,
      splitOnce_last_eq _ (contains_colon_of_startsWith "people:" _ (by decide) hP)]

/-- Witness for the claim C10 theorem: a pair whose Leader value is
prefixed while its People value is not (only the leader conditional
fires), and a pair with a prefixed People value (the people conditional
fires). -/
theorem ctw_role_prefix_stripping_witness :
    pyStartsWith "leader:" (pyLower (pyStrip "Leader: Come")) = true ∧
    (add_call_to_worship_slide ⟨"Leader: Come", "Amen"⟩).leaderRuns
      = ["Leader: ", pyLStrip (dropThroughFirstColon "Leader: Come")] ∧
    pyStartsWith "people:" (pyLower (pyStrip " PEOPLE:Amen ")) = true ∧
    (add_call_to_worship_slide ⟨"Rejoice", " PEOPLE:Amen "⟩).peopleRuns
      = ["People: ", pyLStrip (dropThroughFirstColon " PEOPLE:Amen ")] :=
  ⟨by decide,
    (ctw_role_prefix_stripping ⟨"Leader: Come", "Amen"⟩).1 (by decide),
    by decide,
    (ctw_role_prefix_stripping ⟨"Rejoice", " PEOPLE:Amen "⟩).2 (by decide)⟩
